import Mathlib

/-!
# Verification of the cross-venue arbitrage engine

A shallow embedding, in Lean 4, of the components of the arbitrage engine
relevant to its specification: the risk manager, the signal service, the
execution state machine, the execution simulator, the depth model, the
hard-rules validator, the Kalshi order-book transform, the lead-lag
stability filter and the market-pair trading predicate.

Conventions of the embedding:
* Python floats become `ℚ`; timestamps become `ℚ` (epoch seconds);
  millisecond latencies become `ℤ`; contract counts stay `ℤ`/`ℕ`.
* Stateful code is embedded by explicit state passing (the risk store is a
  function `String → ℚ`; the execution client's behaviour is a list of
  per-attempt outcomes; the lead-lag leader deque is a `List String`).
* Randomness (simulated latencies) becomes explicit parameters.
* Fallible paths return `Option`.
-/

namespace Arbitrage

/-- events/models.py `MarketReference`. -/
structure MarketReference where
  venue : String
  market_id : String
  symbol : String
  deriving DecidableEq

/-- events/models.py `OrderBookLevel`. -/
structure OrderBookLevel where
  price : ℚ
  size : ℚ
  deriving DecidableEq

/-- events/models.py `OrderBookSnapshot`. -/
structure OrderBookSnapshot where
  market : MarketReference
  timestamp : ℚ
  bids : List OrderBookLevel
  asks : List OrderBookLevel
  deriving DecidableEq

/-- events/models.py `EdgeComputation`. -/
structure EdgeComputation where
  primary : MarketReference
  hedge : MarketReference
  timestamp : ℚ
  net_edge_cents : ℚ
  expected_slippage_cents : ℚ
  confidence : ℚ
  recommended_primary_side : String
  deriving DecidableEq

/-- events/models.py `ExecutionIntent`. -/
structure ExecutionIntent where
  edge : EdgeComputation
  intent_id : String
  max_notional : ℚ
  hedge_probability : ℚ
  deriving DecidableEq

/-- events/models.py `ExecutionResult`. -/
structure ExecutionResult where
  intent_id : String
  success : Bool
  hedge_completed_ms : Option ℤ
  message : Option String
  deriving DecidableEq

/-- markets/pairs.py `MarketWindow` (datetimes as epoch seconds). -/
structure MarketWindow where
  open_time : ℚ
  close_time : ℚ
  resolution_time : ℚ
  deriving DecidableEq

/-- markets/pairs.py `MarketPair`. -/
structure MarketPair where
  primary : MarketReference
  hedge : MarketReference
  window : MarketWindow
  llm_similarity : ℚ
  hard_rules_passed : Bool
  last_validated : ℚ
  notes : Option String
  deriving DecidableEq

/-- markets/pairs.py `MarketWindow.is_live`; `datetime.utcnow()` is passed
explicitly as `now`. -/
def MarketWindow.is_live (w : MarketWindow) (now : ℚ) : Bool :=
  if w.open_time ≤ now ∧ now ≤ w.close_time then true else false

/-- markets/pairs.py `MarketPair.is_tradeable`. -/
def MarketPair.is_tradeable (pair : MarketPair) (now : ℚ) : Bool :=
  pair.hard_rules_passed && pair.window.is_live now

/-- risk/manager.py `RiskLimits`. -/
structure RiskLimits where
  venue_cap : ℚ
  per_contract_limit : ℚ
  concurrent_pairs : ℕ
  deriving DecidableEq

/-- The PRD defaults of risk/manager.py `RiskLimits`. -/
def RiskLimits.default : RiskLimits := ⟨5000, 250, 5⟩

namespace RiskManager

/-- risk/manager.py `RiskManager.approve`.  The `RiskStore` protocol is
embedded as a map `String → ℚ` from venue to total notional; the pair
returned is (decision, store after the call). -/
def approve (store : String → ℚ) (limits : RiskLimits) (intent : ExecutionIntent) :
    Bool × (String → ℚ) :=
  let venue := intent.edge.primary.venue
  let current := store venue
  if current + intent.max_notional > limits.venue_cap then (false, store)
  else if intent.max_notional > limits.per_contract_limit then (false, store)
  else (true, fun v => if v = venue then store v + intent.max_notional else store v)

end RiskManager

/-- signals/service.py `SignalRequest`. -/
structure SignalRequest where
  pair : MarketPair
  target_size : ℚ
  primary_price : ℚ
  hedge_price : ℚ
  deriving DecidableEq

namespace SignalService

/-- The net edge computed inside signals/service.py `SignalService.compute`:
`(hedge_price - primary_price) * 100` minus the friction-model and
depth-model costs.  The `FrictionModel` and `DepthModel` protocols are
embedded as function parameters. -/
def net_edge (friction_model depth_model : MarketPair → ℚ → ℚ)
    (request : SignalRequest) : ℚ :=
  (request.hedge_price - request.primary_price) * 100
    - friction_model request.pair request.target_size
    - depth_model request.pair request.target_size

/-- signals/service.py `SignalService.compute`.  The dataclass fields
`min_edge_cents` (default 2.5) and `min_hedge_probability` (default 0.99)
are the third and fourth parameters; the source stores
`min_hedge_probability` but `compute` never reads it. -/
def compute (friction_model depth_model : MarketPair → ℚ → ℚ)
    (min_edge_cents min_hedge_probability : ℚ) (request : SignalRequest) :
    Option EdgeComputation :=
  if net_edge friction_model depth_model request < min_edge_cents then none
  else
    some { primary := request.pair.primary
           hedge := request.pair.hedge
           timestamp := request.pair.last_validated
           net_edge_cents := net_edge friction_model depth_model request
           expected_slippage_cents := depth_model request.pair request.target_size
           confidence := 85/100
           recommended_primary_side :=
             if net_edge friction_model depth_model request > 0 then "buy" else "sell" }

end SignalService

/-- execution/state_machine.py `ExecutionState`. -/
inductive ExecutionState where
  | READY
  | PRIMARY_PLACED
  | HEDGE_PLACED
  | SETTLED
  | FAILED
  deriving DecidableEq

/-- One attempt's worth of `ExecutionClient` behaviour: what
`place_primary` and `hedge` return if called on that attempt.  The source
client is asynchronous; `hedge_elapsed_ms` records how long the hedge leg
took, which the state machine never inspects (it has no clock). -/
structure AttemptOutcome where
  primary_ok : Bool
  hedge_ok : Bool
  hedge_elapsed_ms : ℤ
  deriving DecidableEq

/-- execution/state_machine.py `ExecutionContext`, extended with
instrumentation counters for the client calls (`cancels`,
`primary_successes`, `hedge_successes`) needed to state the spec's
invariants; the Python context carries `intent`, `state`, `attempts`,
`events`. -/
structure ExecutionContext where
  state : ExecutionState
  attempts : ℕ
  events : List String
  cancels : ℕ
  primary_successes : ℕ
  hedge_successes : ℕ
  deriving DecidableEq

namespace ExecutionStateMachine

/-- The fresh context for one `execute` run. -/
def initial_context : ExecutionContext :=
  ⟨ExecutionState.READY, 0, [], 0, 0, 0⟩

/-- The failure result message of execution/state_machine.py
`ExecutionStateMachine.execute`: `";".join(ctx.events) or "exhausted
attempts"`. -/
def failure_message (events : List String) : String :=
  let joined := String.intercalate ";" events
  if joined = "" then "exhausted attempts" else joined

/-- The `while ctx.attempts < self.max_attempts` loop of
execution/state_machine.py `ExecutionStateMachine.execute`, driven by one
`AttemptOutcome` per iteration; the list length is the number of attempts
still permitted.  Returns the final context and the single
`ExecutionResult`. -/
def run : List AttemptOutcome → ExecutionContext → String →
    ExecutionContext × ExecutionResult
  | [], ctx, intent_id =>
      (ctx, ⟨intent_id, false, none, some (failure_message ctx.events)⟩)
  | o :: rest, ctx, intent_id =>
      let ctx1 := { ctx with attempts := ctx.attempts + 1 }
      if o.primary_ok = false then
        run rest { ctx1 with events := ctx1.events ++ ["primary_rejected"] } intent_id
      else
        let ctx2 := { ctx1 with state := ExecutionState.PRIMARY_PLACED
                                primary_successes := ctx1.primary_successes + 1 }
        if o.hedge_ok = false then
          run rest { ctx2 with events := ctx2.events ++ ["hedge_failed"]
                               cancels := ctx2.cancels + 1
                               state := ExecutionState.FAILED } intent_id
        else
          ({ ctx2 with state := ExecutionState.SETTLED
                       hedge_successes := ctx2.hedge_successes + 1 },
           ⟨intent_id, true, none, some "settled"⟩)

/-- execution/state_machine.py `ExecutionStateMachine.execute` with
`max_attempts` (default 2), starting from a fresh context. -/
def execute (max_attempts : ℕ) (outcomes : List AttemptOutcome)
    (intent_id : String) : ExecutionContext × ExecutionResult :=
  run (outcomes.take max_attempts) initial_context intent_id

end ExecutionStateMachine

namespace ExecutionSimulator

/-- backtest/simulator.py `SimulatedFill`. -/
structure SimulatedFill where
  success : Bool
  filled_price : ℚ
  filled_size : ℚ
  latency_ms : ℤ
  reason : Option String
  deriving DecidableEq

/-- The `for level in levels[:3]` fill loop of backtest/simulator.py
`ExecutionSimulator._execute_against_book`; accumulators are
(total_cost, total_size, remaining). -/
def fill_walk : List OrderBookLevel → ℚ → ℚ → ℚ → ℚ × ℚ
  | [], total_cost, total_size, _ => (total_cost, total_size)
  | l :: rest, total_cost, total_size, remaining =>
      if remaining ≤ 0 then (total_cost, total_size)
      else
        let fill_size := min remaining l.size
        fill_walk rest (total_cost + fill_size * l.price) (total_size + fill_size)
          (remaining - fill_size)

/-- backtest/simulator.py `ExecutionSimulator._execute_against_book`.  The
simulated random latency is an explicit parameter. -/
def execute_against_book (book : OrderBookSnapshot) (side : String)
    (target_size : ℚ) (latency : ℤ) : SimulatedFill :=
  let levels := if side = "buy" then book.asks else book.bids
  if levels = [] then ⟨false, 0, 0, latency, some "No liquidity available"⟩
  else
    let walk := fill_walk (levels.take 3) 0 0 target_size
    if walk.2 = 0 then ⟨false, 0, 0, latency, some "Insufficient liquidity"⟩
    else ⟨true, walk.1 / walk.2, walk.2, latency, none⟩

/-- backtest/simulator.py `ExecutionSimulator.simulate_hedged_execution`
with `hedge_timeout` (default 250 ms); the two simulated latencies are
explicit parameters.  The simulator has no execution client: no order is
ever cancelled and no event log exists on this path. -/
def simulate_hedged_execution (hedge_timeout : ℤ) (intent : ExecutionIntent)
    (primary_book hedge_book : OrderBookSnapshot)
    (primary_latency hedge_latency : ℤ) : ExecutionResult :=
  let primary_side := intent.edge.recommended_primary_side
  let hedge_side := if primary_side = "buy" then "sell" else "buy"
  let target_size :=
    match primary_book.asks with
    | [] => 0
    | l :: _ => intent.max_notional / l.price
  let primary_fill := execute_against_book primary_book primary_side target_size primary_latency
  if primary_fill.success = false then
    ⟨intent.intent_id, false, none,
     some ("Primary failed: " ++ primary_fill.reason.getD "None")⟩
  else
    let hedge_fill :=
      execute_against_book hedge_book hedge_side primary_fill.filled_size hedge_latency
    let total_latency := primary_fill.latency_ms + hedge_fill.latency_ms
    if total_latency > hedge_timeout then
      ⟨intent.intent_id, false, some total_latency, some "Hedge timeout exceeded"⟩
    else if hedge_fill.success = false then
      ⟨intent.intent_id, false, some total_latency,
       some ("Hedge failed: " ++ hedge_fill.reason.getD "None")⟩
    else
      ⟨intent.intent_id, true, some total_latency, some "Execution successful"⟩

end ExecutionSimulator

namespace DepthModel

/-- signals/depth.py `DepthAnalysis`. -/
structure DepthAnalysis where
  primary_bid_depth_usd : ℚ
  primary_ask_depth_usd : ℚ
  hedge_bid_depth_usd : ℚ
  hedge_ask_depth_usd : ℚ
  primary_best_bid : ℚ
  primary_best_ask : ℚ
  hedge_best_bid : ℚ
  hedge_best_ask : ℚ
  deriving DecidableEq

/-- signals/depth.py `DepthModel.analyze_depth` with `max_levels`
(default 3). -/
def analyze_depth (max_levels : ℕ) (primary_book hedge_book : OrderBookSnapshot) :
    DepthAnalysis :=
  { primary_bid_depth_usd :=
      ((primary_book.bids.take max_levels).map fun l => l.price * l.size).sum
    primary_ask_depth_usd :=
      ((primary_book.asks.take max_levels).map fun l => l.price * l.size).sum
    hedge_bid_depth_usd :=
      ((hedge_book.bids.take max_levels).map fun l => l.price * l.size).sum
    hedge_ask_depth_usd :=
      ((hedge_book.asks.take max_levels).map fun l => l.price * l.size).sum
    primary_best_bid := match primary_book.bids with | [] => 0 | l :: _ => l.price
    primary_best_ask := match primary_book.asks with | [] => 1 | l :: _ => l.price
    hedge_best_bid := match hedge_book.bids with | [] => 0 | l :: _ => l.price
    hedge_best_ask := match hedge_book.asks with | [] => 1 | l :: _ => l.price }

/-- The `for level in levels[:max_levels]` walk of signals/depth.py
`DepthModel._calculate_vwap`; accumulators are
(total_cost, total_size, remaining).  A level whose notional fits within
`remaining` is consumed whole; otherwise the level is partially filled and
the walk stops. -/
def vwap_walk : List OrderBookLevel → ℚ → ℚ → ℚ → ℚ × ℚ
  | [], total_cost, total_size, _ => (total_cost, total_size)
  | l :: rest, total_cost, total_size, remaining =>
      let level_notional := l.price * l.size
      if level_notional ≤ remaining then
        vwap_walk rest (total_cost + level_notional) (total_size + l.size)
          (remaining - level_notional)
      else
        (total_cost + remaining, total_size + remaining / l.price)

/-- signals/depth.py `DepthModel._calculate_vwap`: VWAP of filling
`target_size_usd` of notional from the top `max_levels` levels, `0` when
no liquidity at all was consumed. -/
def calculate_vwap (max_levels : ℕ) (levels : List OrderBookLevel)
    (target_size_usd : ℚ) : ℚ :=
  if levels = [] then 0
  else
    let walk := vwap_walk (levels.take max_levels) 0 0 target_size_usd
    if walk.2 = 0 then 0 else walk.1 / walk.2

/-- signals/depth.py `DepthModel.expected_slippage_cents`.  The `pair`
argument of the source is used only for logging and is omitted; order
books are `Option`s exactly as in the source signature. -/
def expected_slippage_cents (max_levels : ℕ) (size_usd : ℚ)
    (primary_book hedge_book : Option OrderBookSnapshot) : ℚ :=
  match primary_book, hedge_book with
  | some pb, some hb =>
      let depth := analyze_depth max_levels pb hb
      let primary_vwap := calculate_vwap max_levels pb.asks size_usd
      if primary_vwap = 0 then size_usd * (2/100) * 100
      else
        let hedge_vwap := calculate_vwap max_levels hb.bids size_usd
        if hedge_vwap = 0 then size_usd * (2/100) * 100
        else
          let primary_slippage :=
            |primary_vwap - depth.primary_best_ask| * size_usd / depth.primary_best_ask
          let hedge_slippage :=
            |hedge_vwap - depth.hedge_best_bid| * size_usd / depth.hedge_best_bid
          (primary_slippage + hedge_slippage) * 100
  | _, _ => size_usd * (1/100) * 100

end DepthModel

namespace HardRulesValidator

/-- matching/validators.py `ValidationResult`. -/
structure ValidationResult where
  passed : Bool
  reason : Option String
  deriving DecidableEq

/-- `needle.isPrefixOf hay` over characters, used to embed Python's `in`
and `re` literal matching. -/
def starts_with : List Char → List Char → Bool
  | [], _ => true
  | _ :: _, [] => false
  | a :: as, b :: bs => a = b && starts_with as bs

/-- Python's substring test `needle in hay`. -/
def has_sub (needle : List Char) : List Char → Bool
  | [] => starts_with needle []
  | c :: rest => starts_with needle (c :: rest) || has_sub needle rest

/-- Python `str.lower` (ASCII). -/
def to_lower (cs : List Char) : List Char := cs.map Char.toLower

/-- Python `str.strip`. -/
def trim_chars (cs : List Char) : List Char :=
  ((cs.dropWhile Char.isWhitespace).reverse.dropWhile Char.isWhitespace).reverse

/-- The `replacements` table of matching/validators.py
`HardRulesValidator._normalize_resolution_source`, in dict insertion
order. -/
def replacements : List (String × String) :=
  [("official", "official_data"),
   ("bureau of labor statistics", "bls"),
   ("federal reserve", "fed"),
   ("new york times", "nyt"),
   ("associated press", "ap")]

/-- matching/validators.py
`HardRulesValidator._normalize_resolution_source`. -/
def normalize_resolution_source (text : String) : String :=
  let t := trim_chars (to_lower text.data)
  match replacements.find? (fun r => has_sub r.1.data t) with
  | some r => r.2
  | none => ⟨t⟩

/-- Value of a digit run, for embedding Python `float`. -/
def digits_value (cs : List Char) : ℕ :=
  cs.foldl (fun acc c => acc * 10 + (c.toNat - 48)) 0

/-- Python `float` applied to a `[\d.]+` match: accepts at most one dot
and at least one digit, else `ValueError` (None). -/
def parse_float (cs : List Char) : Option ℚ :=
  if cs = [] then none
  else if 1 < (cs.filter (fun c => c = '.')).length then none
  else if (cs.filter Char.isDigit).length = 0 then none
  else
    let int_part := cs.takeWhile (fun c => c ≠ '.')
    let frac_part := (cs.dropWhile (fun c => c ≠ '.')).drop 1
    some ((digits_value int_part : ℚ) +
      (digits_value frac_part : ℚ) / (10 : ℚ) ^ frac_part.length)

/-- One position of `re.search` for a pattern
`(?:alt1|alt2|...)\s*([\d.]+)`: try the alternatives in order at the head
of `s`; on a literal match, skip whitespace greedily and take the digit/dot
run, which must be non-empty.  Returns the captured group. -/
def match_at (alts : List String) (s : List Char) : Option (List Char) :=
  alts.findSome? fun alt =>
    if starts_with alt.data s then
      let rest := (s.drop alt.data.length).dropWhile Char.isWhitespace
      let run := rest.takeWhile (fun c => c.isDigit || c = '.')
      if run = [] then none else some run
    else none

/-- `re.search`: scan left to right for the first position where the
pattern matches. -/
def search_number (alts : List String) : List Char → Option (List Char)
  | [] => match_at alts []
  | c :: rest =>
      match match_at alts (c :: rest) with
      | some r => some r
      | none => search_number alts rest

/-- The `patterns` list of matching/validators.py
`HardRulesValidator._extract_numeric_threshold`, in source order. -/
def patterns : List (List String × String) :=
  [(["≥", ">=", "at least"], ">="),
   ([">", "above", "over", "exceed"], ">"),
   (["≤", "<=", "at most"], "<="),
   (["<", "below", "under", "less than"], "<")]

/-- matching/validators.py
`HardRulesValidator._extract_numeric_threshold`: first pattern (in order)
whose `re.search` finds a match that parses as a float wins. -/
def extract_numeric_threshold (text : String) : Option (String × ℚ) :=
  let s := to_lower text.data
  patterns.findSome? fun p =>
    match search_number p.1 s with
    | none => none
    | some run =>
        match parse_float run with
        | none => none
        | some v => some (p.2, v)

/-- matching/validators.py
`HardRulesValidator._check_time_window_alignment`:
`abs(close - open) < 3600 s` fails. -/
def check_time_window_alignment (pair : MarketPair) : ValidationResult :=
  let time_diff := |pair.window.close_time - pair.window.open_time|
  if time_diff < 3600 then ⟨false, some "Market window too short"⟩
  else ⟨true, none⟩

/-- matching/validators.py `HardRulesValidator._check_threshold_alignment`.
The source formats the mismatch reason with the two operators and values;
the reason text is not consulted by any claim and is kept constant here. -/
def check_threshold_alignment (pair : MarketPair) : ValidationResult :=
  let primary_text := pair.primary.market_id ++ " " ++ pair.primary.symbol
  let hedge_text := pair.hedge.market_id ++ " " ++ pair.hedge.symbol
  let primary_threshold := extract_numeric_threshold primary_text
  let hedge_threshold := extract_numeric_threshold hedge_text
  if primary_threshold.isSome ≠ hedge_threshold.isSome then
    ⟨false, some "One market has threshold, other does not"⟩
  else
    match primary_threshold, hedge_threshold with
    | some t1, some t2 =>
        if t1.1 ≠ t2.1 ∨ |t1.2 - t2.2| > 1/100 then
          ⟨false, some "Threshold mismatch"⟩
        else ⟨true, none⟩
    | _, _ => ⟨true, none⟩

/-- matching/validators.py `HardRulesValidator.validate`.  The constructor
stores `time_window_tolerance_hours` and `allowed_resolution_mismatches`
(lines 46-47), but `validate` runs only the time-window and threshold
checks; both stored settings, and `_normalize_resolution_source`, are
never consulted — the parameters are kept here to exhibit that. -/
def validate (time_window_tolerance_hours : ℕ)
    (allowed_resolution_mismatches : List (String × String))
    (pair : MarketPair) : MarketPair :=
  let checks := [("time_window", check_time_window_alignment pair),
                 ("threshold", check_threshold_alignment pair)]
  let failed_checks := (checks.filter fun c => !c.2.passed).map fun c => c.1
  if failed_checks = [] then { pair with hard_rules_passed := true }
  else { pair with hard_rules_passed := false
                   notes := some ("Failed: " ++ String.intercalate ", " failed_checks) }

end HardRulesValidator

namespace KalshiAdapter

/-- One raw Kalshi order: `price` in integer-or-fractional cents,
`quantity` in contracts (the source applies `int(...)`). -/
structure RawOrder where
  price : ℚ
  quantity : ℤ
  deriving DecidableEq

/-- Ordering used for the `bids.sort(key=price, reverse=True)` call:
descending by price.  Python's sort and `List.insertionSort` are both
stable, so they agree on every input. -/
def bid_order (a b : OrderBookLevel) : Prop := b.price ≤ a.price

/-- Ordering used for the `asks.sort(key=price)` call: ascending by
price. -/
def ask_order (a b : OrderBookLevel) : Prop := a.price ≤ b.price

instance : DecidableRel bid_order := fun a b =>
  inferInstanceAs (Decidable (b.price ≤ a.price))

instance : DecidableRel ask_order := fun a b =>
  inferInstanceAs (Decidable (a.price ≤ b.price))

instance : IsTotal OrderBookLevel bid_order :=
  ⟨fun a b => le_total b.price a.price⟩

instance : IsTrans OrderBookLevel bid_order :=
  ⟨fun _ _ _ h1 h2 => le_trans h2 h1⟩

instance : IsTotal OrderBookLevel ask_order :=
  ⟨fun a b => le_total a.price b.price⟩

instance : IsTrans OrderBookLevel ask_order :=
  ⟨fun _ _ _ h1 h2 => le_trans h1 h2⟩

/-- ingest/kalshi.py `KalshiAdapter._parse_orderbook_snapshot`: YES bids
become bids at `price/100`, NO bids become asks at `1 - price/100`; levels
with non-positive parsed price or non-positive quantity are dropped; each
raw side is truncated to `max_depth` before conversion; bids are sorted
descending and asks ascending.  The venue arrival timestamp is an explicit
parameter. -/
def parse_orderbook_snapshot (venue ticker : String) (timestamp : ℚ)
    (max_depth : ℕ) (yes no : List RawOrder) : OrderBookSnapshot :=
  let bids := (yes.take max_depth).filterMap fun o =>
    if 0 < o.price / 100 ∧ 0 < o.quantity
    then some ⟨o.price / 100, (o.quantity : ℚ)⟩ else none
  let asks := (no.take max_depth).filterMap fun o =>
    if 0 < o.price / 100 ∧ 0 < o.quantity
    then some ⟨1 - o.price / 100, (o.quantity : ℚ)⟩ else none
  { market := ⟨venue, ticker, ticker⟩
    timestamp := timestamp
    bids := bids.insertionSort bid_order
    asks := asks.insertionSort ask_order }

end KalshiAdapter

namespace LeadLagAnalyzer

/-- signals/leadlag.py `LeadLagResult`. -/
structure LeadLagResult where
  leader : Option String
  lag_seconds : ℤ
  correlation : ℚ
  confidence : ℚ
  stable : Bool
  deriving DecidableEq

/-- Appending to the `deque(maxlen=stability_window)` leader history. -/
def push_leader (stability_window : ℕ) (history : List String)
    (leader : String) : List String :=
  let h := history ++ [leader]
  h.drop (h.length - stability_window)

/-- The tail of signals/leadlag.py `LeadLagAnalyzer.analyze` (lines
255-296): leader determination from the optimal lag and correlation
returned by `_compute_cross_correlation`, history update, the stability
filter and the confidence formula.  The numeric cross-correlation search
is abstracted as the `(optimal_lag, correlation)` inputs; a Pearson
coefficient always satisfies `|correlation| ≤ 1`.  Returns the result and
the updated leader history for the pair. -/
def analyze_tail (min_correlation : ℚ) (stability_window : ℕ)
    (bar_interval_seconds : ℤ) (venue_a venue_b : String)
    (history : List String) (optimal_lag : ℤ) (correlation : ℚ) :
    LeadLagResult × List String :=
  let det : Option String × ℤ :=
    if min_correlation ≤ |correlation| then
      if 0 < optimal_lag then (some venue_a, optimal_lag)
      else if optimal_lag < 0 then (some venue_b, |optimal_lag|)
      else (none, optimal_lag)
    else (none, optimal_lag)
  let leader := det.1
  let history1 :=
    match leader with
    | some l => push_leader stability_window history l
    | none => history
  let stable :=
    match leader with
    | some l => if 3 ≤ history1.length ∧ 3 ≤ history1.count l then true else false
    | none => false
  let confidence := if stable then min |correlation| 1 else |correlation| * (1/2)
  (⟨leader, det.2 * bar_interval_seconds, correlation, confidence, stable⟩, history1)

end LeadLagAnalyzer

/-! ## Concrete fixtures used by witnesses and counterexamples -/

/-- A friction/depth model returning zero cost, for concrete runs. -/
def zero_model : MarketPair → ℚ → ℚ := fun _ _ => 0

/-- A validated CPI pair; its identifier texts contain no digits and no
comparison phrase, so threshold extraction finds nothing on either side. -/
def pair_fixture : MarketPair :=
  { primary := ⟨"polymarket", "cpi_a", "cpi_a"⟩
    hedge := ⟨"kalshi", "cpi_b", "cpi_b"⟩
    window := ⟨0, 86400, 90000⟩
    llm_similarity := 1
    hard_rules_passed := true
    last_validated := 0
    notes := none }

/-- Spec scenario 1: primary best ask 0.55, hedge best bid 0.60. -/
def request_fixture : SignalRequest :=
  { pair := pair_fixture
    target_size := 100
    primary_price := 11/20
    hedge_price := 3/5 }

/-- A request whose (primary=buy, hedge=sell) gross edge is −70¢ while
the symmetric direction has gross edge +70¢. -/
def reversed_request_fixture : SignalRequest :=
  { pair := pair_fixture
    target_size := 100
    primary_price := 9/10
    hedge_price := 1/5 }

/-- Edge of spec scenario 1 (net 5.0 − 0.5 − 0.3 = 4.2¢, buy primary). -/
def edge_fixture : EdgeComputation :=
  { primary := ⟨"polymarket", "cpi_a", "cpi_a"⟩
    hedge := ⟨"kalshi", "cpi_b", "cpi_b"⟩
    timestamp := 0
    net_edge_cents := 21/5
    expected_slippage_cents := 3/10
    confidence := 85/100
    recommended_primary_side := "buy" }

/-- An intent for $100 of notional on `edge_fixture`. -/
def intent_fixture : ExecutionIntent := ⟨edge_fixture, "intent-1", 100, 99/100⟩

/-- Spec scenario 6: an intent for $200 of notional. -/
def intent_risk_fixture : ExecutionIntent := ⟨edge_fixture, "intent-2", 200, 99/100⟩

/-- Primary book with asks [(0.55, 400)]. -/
def primary_book_fixture : OrderBookSnapshot :=
  ⟨⟨"polymarket", "cpi_a", "cpi_a"⟩, 0, [], [⟨11/20, 400⟩]⟩

/-- Hedge book with bids [(0.60, 400)]. -/
def hedge_book_fixture : OrderBookSnapshot :=
  ⟨⟨"kalshi", "cpi_b", "cpi_b"⟩, 0, [⟨3/5, 400⟩], []⟩

/-- Primary book whose single ask level holds only $5 of notional. -/
def thin_primary_book : OrderBookSnapshot :=
  ⟨⟨"polymarket", "cpi_a", "cpi_a"⟩, 0, [], [⟨1/2, 10⟩]⟩

/-- Hedge book whose single bid level holds $200 of notional. -/
def deep_hedge_book : OrderBookSnapshot :=
  ⟨⟨"kalshi", "cpi_b", "cpi_b"⟩, 0, [⟨1/2, 400⟩], []⟩

/-- Spec scenario 4, raw YES side: [(55¢, 100), (54¢, 200)]. -/
def yes_fixture : List KalshiAdapter.RawOrder := [⟨55, 100⟩, ⟨54, 200⟩]

/-- Spec scenario 4, raw NO side: [(45¢, 120), (46¢, 180)]. -/
def no_fixture : List KalshiAdapter.RawOrder := [⟨45, 120⟩, ⟨46, 180⟩]

/-! ## The claims under test, stated as written -/

/-- Claim C2 as stated: with the default thresholds, `compute` emits a
signal iff `net_edge_cents ≥ 2.5` AND the estimated hedge probability is
`≥ 0.99`.  No hedge-probability estimator exists in the code, so the
quantity the claim calls "the estimated hedge_probability" is universally
quantified. -/
def claimC2 : Prop :=
  ∀ (friction_model depth_model : MarketPair → ℚ → ℚ) (request : SignalRequest)
    (hedge_probability : ℚ),
    (SignalService.compute friction_model depth_model (5/2) (99/100)
        request).isSome = true ↔
      (5/2 ≤ SignalService.net_edge friction_model depth_model request ∧
       99/100 ≤ hedge_probability)

/-- Claim C3 as stated, for every attempt budget and client behaviour:
a run ending in SETTLED saw exactly one successful `place_primary` and
exactly one successful `hedge`, and an unsuccessful run that performed a
PRIMARY_PLACED transition invoked `cancel` at least once. -/
def claimC3 : Prop :=
  ∀ (max_attempts : ℕ) (outcomes : List AttemptOutcome) (intent_id : String),
    let r := ExecutionStateMachine.execute max_attempts outcomes intent_id
    (r.1.state = ExecutionState.SETTLED →
      r.1.primary_successes = 1 ∧ r.1.hedge_successes = 1) ∧
    (r.2.success = false → 1 ≤ r.1.primary_successes → 1 ≤ r.1.cancels)

/-- Claim C4 as stated, specialized to a one-attempt behaviour: whenever
the hedge leg fails OR the hedge elapsed time exceeds the
`hedge_completion_ms` budget, `cancel` is invoked and `hedge_failed` is
appended to the run's event log. -/
def claimC4 (hedge_completion_ms : ℤ) : Prop :=
  ∀ (o : AttemptOutcome) (intent_id : String),
    o.primary_ok = true →
    (o.hedge_ok = false ∨ hedge_completion_ms < o.hedge_elapsed_ms) →
    1 ≤ (ExecutionStateMachine.execute 2 [o] intent_id).1.cancels ∧
    "hedge_failed" ∈ (ExecutionStateMachine.execute 2 [o] intent_id).1.events

/-- Claim C5 as stated: when either leg's top-`max_levels` notional is
below the target `n`, the result is the conservative 2% penalty; when
both legs can fill `n`, the result is the summed per-leg VWAP slippage. -/
def claimC5 (max_levels : ℕ) : Prop :=
  ∀ (pb hb : OrderBookSnapshot) (n : ℚ), 0 < n →
    let d := DepthModel.analyze_depth max_levels pb hb
    ((d.primary_ask_depth_usd < n ∨ d.hedge_bid_depth_usd < n) →
      DepthModel.expected_slippage_cents max_levels n (some pb) (some hb) =
        (2/100) * n * 100) ∧
    (n ≤ d.primary_ask_depth_usd → n ≤ d.hedge_bid_depth_usd →
      DepthModel.expected_slippage_cents max_levels n (some pb) (some hb) =
        (|DepthModel.calculate_vwap max_levels pb.asks n - d.primary_best_ask|
            * n / d.primary_best_ask +
         |DepthModel.calculate_vwap max_levels hb.bids n - d.hedge_best_bid|
            * n / d.hedge_best_bid) * 100)

/-- Claim C7 as stated: the canonical snapshot keeps exactly the price
range (0,1) with positive sizes, NO levels correspond to ask levels at the
complement price (and vice versa, up to truncation at `max_depth`), and
sides are sorted (bids descending, asks ascending). -/
def claimC7 (max_depth : ℕ) : Prop :=
  ∀ (venue ticker : String) (ts : ℚ) (yes no : List KalshiAdapter.RawOrder),
    let snap := KalshiAdapter.parse_orderbook_snapshot venue ticker ts max_depth yes no
    (∀ l ∈ snap.bids, 0 < l.price ∧ l.price < 1 ∧ 0 < l.size) ∧
    (∀ l ∈ snap.asks, 0 < l.price ∧ l.price < 1 ∧ 0 < l.size) ∧
    (∀ l ∈ snap.asks, ∃ o ∈ no.take max_depth,
       l = ⟨1 - o.price / 100, (o.quantity : ℚ)⟩) ∧
    snap.bids.Pairwise KalshiAdapter.bid_order ∧
    snap.asks.Pairwise KalshiAdapter.ask_order

/-- Claim C9 as stated: tradability is the conjunction of
`hard_rules_passed`, an `active` flag and window membership.  The model
has no `active` field, so the putative flag is universally quantified. -/
def claimC9 : Prop :=
  ∀ (pair : MarketPair) (now : ℚ) (active : Bool),
    pair.is_tradeable now =
      (pair.hard_rules_passed && active && pair.window.is_live now)

/-- Claim C10 as stated: when the (primary=buy, hedge=sell) gross edge is
negative, the symmetric direction is tested, and a sufficient symmetric
net edge yields a signal recommending the opposite side. -/
def claimC10 : Prop :=
  ∀ (friction_model depth_model : MarketPair → ℚ → ℚ) (request : SignalRequest),
    (request.hedge_price - request.primary_price) * 100 < 0 →
    5/2 ≤ (request.primary_price - request.hedge_price) * 100
        - friction_model request.pair request.target_size
        - depth_model request.pair request.target_size →
    ∃ e, SignalService.compute friction_model depth_model (5/2) (99/100)
          request = some e ∧
         e.recommended_primary_side = "sell"

/-! ## Theorems -/

/-- C1: `RiskManager.approve` returns `False` and leaves the venue's
notional counter unchanged when `current + max_notional > venue_cap` or
when `max_notional > per_contract_limit`; otherwise it increments the
venue's notional by exactly `max_notional` (other venues unchanged) and
returns `True`. -/
theorem riskManager_approve_spec (store : String → ℚ) (limits : RiskLimits)
    (intent : ExecutionIntent) :
    (store intent.edge.primary.venue + intent.max_notional > limits.venue_cap ∨
       intent.max_notional > limits.per_contract_limit →
      (RiskManager.approve store limits intent).1 = false ∧
      (RiskManager.approve store limits intent).2 = store) ∧
    (store intent.edge.primary.venue + intent.max_notional ≤ limits.venue_cap →
     intent.max_notional ≤ limits.per_contract_limit →
      (RiskManager.approve store limits intent).1 = true ∧
      (RiskManager.approve store limits intent).2 intent.edge.primary.venue =
        store intent.edge.primary.venue + intent.max_notional ∧
      ∀ v, v ≠ intent.edge.primary.venue →
        (RiskManager.approve store limits intent).2 v = store v) := by
  unfold RiskManager.approve
  constructor
  · intro h
    by_cases h1 : store intent.edge.primary.venue + intent.max_notional > limits.venue_cap
    · rw [if_pos h1]
      exact ⟨rfl, rfl⟩
    · have h2 : intent.max_notional > limits.per_contract_limit := h.resolve_left h1
      rw [if_neg h1, if_pos h2]
      exact ⟨rfl, rfl⟩
  · intro hcap hlim
    rw [if_neg (not_lt.mpr hcap), if_neg (not_lt.mpr hlim)]
    refine ⟨rfl, ?_, ?_⟩
    · simp
    · intro v hv
      simp [hv]

/-- Witness for C1 at spec scenario 6: venue cap $5,000, current exposure
$4,900, incoming `max_notional` $200 — rejected, counter stays $4,900. -/
theorem riskManager_approve_spec_witness :
    (4900 : ℚ) + 200 > 5000 ∧
    (RiskManager.approve (fun _ => 4900) RiskLimits.default intent_risk_fixture).1 = false ∧
    (RiskManager.approve (fun _ => 4900) RiskLimits.default intent_risk_fixture).2
      "polymarket" = 4900 := by
  have h := (riskManager_approve_spec (fun _ => 4900) RiskLimits.default
      intent_risk_fixture).1
    (Or.inl (by norm_num [intent_risk_fixture, edge_fixture, RiskLimits.default]))
  refine ⟨by norm_num, h.1, ?_⟩
  rw [h.2]

/-- C2 counterexample: `compute` emits for a request with net edge 5¢ even
when the hedge probability is taken to be 0 < 0.99, so emission is not
conditioned on the hedge probability. -/
theorem compute_ignores_hedge_probability : ¬ claimC2 := by
  intro h
  have h2 := (h zero_model zero_model request_fixture 0).mp
    (by norm_num [SignalService.compute, SignalService.net_edge, zero_model,
      request_fixture])
  exact absurd h2.2 (by norm_num)

/-- C2 amended: `compute` emits a signal iff
`net_edge_cents ≥ min_edge_cents`; the configured
`min_hedge_probability` threshold is never consulted. -/
theorem compute_emits_iff_net_edge
    (friction_model depth_model : MarketPair → ℚ → ℚ)
    (min_edge_cents min_hedge_probability : ℚ) (request : SignalRequest) :
    (SignalService.compute friction_model depth_model min_edge_cents
        min_hedge_probability request).isSome = true ↔
      min_edge_cents ≤ SignalService.net_edge friction_model depth_model request := by
  unfold SignalService.compute
  split_ifs with h
  · exact iff_of_false (by simp) (not_le.mpr h)
  all_goals exact iff_of_true (by simp) (not_lt.mp h)

/-- The signal service returns no signal on the reversed fixture: its
buy-direction net edge is −70¢, below every positive threshold. -/
theorem compute_reversed_fixture_none :
    SignalService.compute zero_model zero_model (5/2) (99/100)
      reversed_request_fixture = none := by
  norm_num [SignalService.compute, SignalService.net_edge, zero_model,
    reversed_request_fixture]

/-- C9 counterexample: `is_tradeable` cannot equal the claimed
three-way conjunction for every value of the (non-existent) `active`
flag — the fixture is tradable while the conjunction with
`active = false` is not. -/
theorem is_tradeable_no_active_flag : ¬ claimC9 := by
  intro h
  have h2 := h pair_fixture 50 false
  revert h2
  norm_num [MarketPair.is_tradeable, MarketWindow.is_live, pair_fixture]

/-- C9 amended: a pair is tradable iff `hard_rules_passed` and the
evaluation time lies within the pair's window; the model has no `active`
flag. -/
theorem is_tradeable_spec (pair : MarketPair) (now : ℚ) :
    pair.is_tradeable now = true ↔
      pair.hard_rules_passed = true ∧
      pair.window.open_time ≤ now ∧ now ≤ pair.window.close_time := by
  unfold MarketPair.is_tradeable MarketWindow.is_live
  split_ifs with h
  · simp [h]
  · simp [h]

/-- C10 counterexample: for a request whose buy-direction gross edge is
−70¢ while the symmetric direction clears every threshold, `compute`
returns `none` — the symmetric direction is never tested. -/
theorem compute_never_reverses : ¬ claimC10 := by
  intro h
  obtain ⟨e, he, -⟩ := h zero_model zero_model reversed_request_fixture
    (by norm_num [reversed_request_fixture])
    (by norm_num [reversed_request_fixture, zero_model])
  rw [compute_reversed_fixture_none] at he
  exact Option.noConfusion he

/-- C10 amended: `compute` evaluates only the (primary=buy, hedge=sell)
direction `gross = (hedge_price − primary_price) × 100`.  An emitted
signal clears the threshold and (for a positive threshold) always
recommends "buy"; when the buy-direction gross edge is non-positive and
costs are non-negative, no signal is produced — no symmetric direction is
tested. -/
theorem compute_one_direction (friction_model depth_model : MarketPair → ℚ → ℚ)
    (min_edge_cents min_hedge_probability : ℚ) (request : SignalRequest) :
    (∀ e, SignalService.compute friction_model depth_model min_edge_cents
        min_hedge_probability request = some e →
      min_edge_cents ≤ e.net_edge_cents ∧
      (0 < min_edge_cents → e.recommended_primary_side = "buy")) ∧
    (0 ≤ friction_model request.pair request.target_size →
     0 ≤ depth_model request.pair request.target_size →
     (request.hedge_price - request.primary_price) * 100 ≤ 0 →
     0 < min_edge_cents →
     SignalService.compute friction_model depth_model min_edge_cents
       min_hedge_probability request = none) := by
  constructor
  · intro e he
    revert he
    unfold SignalService.compute
    split_ifs with h hpos
    · intro he
      exact absurd he (by simp)
    · intro he
      obtain rfl : _ = e := Option.some_injective _ he
      exact ⟨not_lt.mp h, fun _ => rfl⟩
    · intro he
      obtain rfl : _ = e := Option.some_injective _ he
      exact ⟨not_lt.mp h,
        fun hm => absurd (lt_of_lt_of_le hm (not_lt.mp h)) hpos⟩
  · intro hf hd hg hm
    have hlt : SignalService.net_edge friction_model depth_model request <
        min_edge_cents := by
      unfold SignalService.net_edge
      linarith
    unfold SignalService.compute
    rw [if_pos hlt]

/-- Every simulated fill reports exactly the latency it was given. -/
theorem execute_against_book_latency (book : OrderBookSnapshot) (side : String)
    (target_size : ℚ) (latency : ℤ) :
    (ExecutionSimulator.execute_against_book book side target_size
      latency).latency_ms = latency := by
  simp only [ExecutionSimulator.execute_against_book]
  split_ifs <;> rfl

/-- Counter deltas of one execution loop run, relative to its starting
context: a successful run performed `d` cancelled primary placements
before the settling one and exactly one successful hedge; a failed run
has as many successful primaries as cancels, no successful hedge, and is
in the FAILED state as soon as any primary was placed. -/
theorem run_spec (outcomes : List AttemptOutcome) (ctx : ExecutionContext)
    (intent_id : String) :
    ((ExecutionStateMachine.run outcomes ctx intent_id).2.success = true →
      ∃ d : ℕ,
        (ExecutionStateMachine.run outcomes ctx intent_id).1.state =
          ExecutionState.SETTLED ∧
        (ExecutionStateMachine.run outcomes ctx intent_id).1.cancels =
          ctx.cancels + d ∧
        (ExecutionStateMachine.run outcomes ctx intent_id).1.primary_successes =
          ctx.primary_successes + d + 1 ∧
        (ExecutionStateMachine.run outcomes ctx intent_id).1.hedge_successes =
          ctx.hedge_successes + 1) ∧
    ((ExecutionStateMachine.run outcomes ctx intent_id).2.success = false →
      ∃ d : ℕ,
        (ExecutionStateMachine.run outcomes ctx intent_id).1.cancels =
          ctx.cancels + d ∧
        (ExecutionStateMachine.run outcomes ctx intent_id).1.primary_successes =
          ctx.primary_successes + d ∧
        (ExecutionStateMachine.run outcomes ctx intent_id).1.hedge_successes =
          ctx.hedge_successes ∧
        ((ExecutionStateMachine.run outcomes ctx intent_id).1.state = ctx.state ∨
         (ExecutionStateMachine.run outcomes ctx intent_id).1.state =
           ExecutionState.FAILED) ∧
        (0 < d →
          (ExecutionStateMachine.run outcomes ctx intent_id).1.state =
            ExecutionState.FAILED)) := by
  induction outcomes generalizing ctx with
  | nil =>
      constructor
      · intro h
        simp [ExecutionStateMachine.run] at h
      · intro _
        exact ⟨0, by simp [ExecutionStateMachine.run],
          by simp [ExecutionStateMachine.run],
          by simp [ExecutionStateMachine.run],
          Or.inl (by simp [ExecutionStateMachine.run]),
          fun h => absurd h (by simp)⟩
  | cons o rest ih =>
      by_cases hp : o.primary_ok
      · by_cases hh : o.hedge_ok
        · constructor
          · intro _
            exact ⟨0, by simp [ExecutionStateMachine.run, hp, hh],
              by simp [ExecutionStateMachine.run, hp, hh],
              by simp [ExecutionStateMachine.run, hp, hh],
              by simp [ExecutionStateMachine.run, hp, hh]⟩
          · intro h
            simp [ExecutionStateMachine.run, hp, hh] at h
        · have step : ExecutionStateMachine.run (o :: rest) ctx intent_id =
              ExecutionStateMachine.run rest
                { ctx with attempts := ctx.attempts + 1
                           state := ExecutionState.FAILED
                           events := ctx.events ++ ["hedge_failed"]
                           cancels := ctx.cancels + 1
                           primary_successes := ctx.primary_successes + 1 }
                intent_id := by
            simp [ExecutionStateMachine.run, hp, hh]
          rw [step]
          constructor
          · intro h
            obtain ⟨d, hs, hc, hpr, hhe⟩ := (ih _).1 h
            exact ⟨d + 1, hs, by simpa [Nat.add_comm, Nat.add_assoc,
              Nat.add_left_comm] using hc, by simpa [Nat.add_comm, Nat.add_assoc,
              Nat.add_left_comm] using hpr, by simpa using hhe⟩
          · intro h
            obtain ⟨d, hc, hpr, hhe, hst, himp⟩ := (ih _).2 h
            refine ⟨d + 1, by simpa [Nat.add_comm, Nat.add_assoc,
              Nat.add_left_comm] using hc, by simpa [Nat.add_comm, Nat.add_assoc,
              Nat.add_left_comm] using hpr, by simpa using hhe, ?_, fun _ => ?_⟩
            · rcases hst with hst | hst
              · exact Or.inr (by simpa using hst)
              · exact Or.inr hst
            · rcases hst with hst | hst
              · simpa using hst
              · exact hst
      · have step : ExecutionStateMachine.run (o :: rest) ctx intent_id =
            ExecutionStateMachine.run rest
              { ctx with attempts := ctx.attempts + 1
                         events := ctx.events ++ ["primary_rejected"] }
              intent_id := by
          simp [ExecutionStateMachine.run, hp]
        rw [step]
        constructor
        · intro h
          obtain ⟨d, hs, hc, hpr, hhe⟩ := (ih _).1 h
          exact ⟨d, hs, by simpa using hc, by simpa using hpr, by simpa using hhe⟩
        · intro h
          obtain ⟨d, hc, hpr, hhe, hst, himp⟩ := (ih _).2 h
          exact ⟨d, by simpa using hc, by simpa using hpr, by simpa using hhe,
            by simpa using hst, fun hd => by simpa using himp hd⟩

/-- C3 counterexample: with the default two attempts, the behaviour
(primary ok, hedge fails) then (primary ok, hedge ok) ends SETTLED after
TWO successful `place_primary` calls, not exactly one. -/
theorem settled_run_can_place_primary_twice : ¬ claimC3 := fun h =>
  absurd (h 2 [⟨true, false, 0⟩, ⟨true, true, 0⟩] "intent-1") (by decide)

/-- C3 amended: a run returns success iff it ends SETTLED; a SETTLED run
saw exactly one successful hedge and `cancels + 1` successful primaries
(every earlier successful primary was cancelled); a failed run saw no
successful hedge, exactly as many cancels as successful primaries, and if
it ever performed a PRIMARY_PLACED transition it invoked `cancel` at least
once and ends FAILED.  `execute` being a function, exactly one
`ExecutionResult` is returned per intent. -/
theorem execute_settles_hedged_once (max_attempts : ℕ)
    (outcomes : List AttemptOutcome) (intent_id : String) :
    ((ExecutionStateMachine.execute max_attempts outcomes intent_id).2.success = true →
      (ExecutionStateMachine.execute max_attempts outcomes intent_id).1.state =
        ExecutionState.SETTLED ∧
      (ExecutionStateMachine.execute max_attempts outcomes intent_id).1.hedge_successes = 1 ∧
      (ExecutionStateMachine.execute max_attempts outcomes intent_id).1.primary_successes =
        (ExecutionStateMachine.execute max_attempts outcomes intent_id).1.cancels + 1) ∧
    ((ExecutionStateMachine.execute max_attempts outcomes intent_id).1.state =
        ExecutionState.SETTLED →
      (ExecutionStateMachine.execute max_attempts outcomes intent_id).2.success = true) ∧
    ((ExecutionStateMachine.execute max_attempts outcomes intent_id).2.success = false →
      (ExecutionStateMachine.execute max_attempts outcomes intent_id).1.hedge_successes = 0 ∧
      (ExecutionStateMachine.execute max_attempts outcomes intent_id).1.primary_successes =
        (ExecutionStateMachine.execute max_attempts outcomes intent_id).1.cancels ∧
      (1 ≤ (ExecutionStateMachine.execute max_attempts outcomes intent_id).1.primary_successes →
        1 ≤ (ExecutionStateMachine.execute max_attempts outcomes intent_id).1.cancels ∧
        (ExecutionStateMachine.execute max_attempts outcomes intent_id).1.state =
          ExecutionState.FAILED)) := by
  unfold ExecutionStateMachine.execute
  have hspec := run_spec (outcomes.take max_attempts)
    ExecutionStateMachine.initial_context intent_id
  refine ⟨?_, ?_, ?_⟩
  · intro h
    obtain ⟨d, hs, hc, hpr, hhe⟩ := hspec.1 h
    refine ⟨hs, by simpa [ExecutionStateMachine.initial_context] using hhe, ?_⟩
    rw [show ExecutionStateMachine.initial_context.cancels = 0 from rfl] at hc
    rw [show ExecutionStateMachine.initial_context.primary_successes = 0
      from rfl] at hpr
    omega
  · intro hs
    cases hsucc : (ExecutionStateMachine.run (outcomes.take max_attempts)
        ExecutionStateMachine.initial_context intent_id).2.success with
    | true => rfl
    | false =>
        obtain ⟨d, hc, hpr, hhe, hst, himp⟩ := hspec.2 hsucc
        rw [hs] at hst
        rcases hst with hst | hst
        · simp [ExecutionStateMachine.initial_context] at hst
        · simp at hst
  · intro h
    obtain ⟨d, hc, hpr, hhe, hst, himp⟩ := hspec.2 h
    rw [show ExecutionStateMachine.initial_context.cancels = 0 from rfl] at hc
    rw [show ExecutionStateMachine.initial_context.primary_successes = 0
      from rfl] at hpr
    rw [show ExecutionStateMachine.initial_context.hedge_successes = 0
      from rfl] at hhe
    refine ⟨hhe, by omega, fun hpos => ?_⟩
    have hd : 0 < d := by omega
    exact ⟨by omega, himp hd⟩

/-- Witness for C3 amended: the two-attempt behaviour (hedge fails, then
both legs fill) settles with one successful hedge and one more successful
primary than cancels. -/
theorem execute_settles_hedged_once_witness :
    (ExecutionStateMachine.execute 2 [⟨true, false, 0⟩, ⟨true, true, 0⟩]
      "intent-1").2.success = true ∧
    (ExecutionStateMachine.execute 2 [⟨true, false, 0⟩, ⟨true, true, 0⟩]
      "intent-1").1.state = ExecutionState.SETTLED ∧
    (ExecutionStateMachine.execute 2 [⟨true, false, 0⟩, ⟨true, true, 0⟩]
      "intent-1").1.hedge_successes = 1 ∧
    (ExecutionStateMachine.execute 2 [⟨true, false, 0⟩, ⟨true, true, 0⟩]
      "intent-1").1.primary_successes =
      (ExecutionStateMachine.execute 2 [⟨true, false, 0⟩, ⟨true, true, 0⟩]
        "intent-1").1.cancels + 1 :=
  ⟨by decide,
   (execute_settles_hedged_once 2 [⟨true, false, 0⟩, ⟨true, true, 0⟩]
     "intent-1").1 (by decide)⟩

/-- C4 counterexample: the state machine has no clock — an attempt whose
hedge leg succeeds after 400 ms (budget 250 ms) settles without any
cancel and without a `hedge_failed` event. -/
theorem no_latency_budget_in_state_machine : ¬ claimC4 250 := fun h =>
  absurd (h ⟨true, true, 400⟩ "intent-1" (by decide) (Or.inr (by decide)))
    (by decide)

/-- C4 amended: in the state machine, a failed hedge leg appends
`hedge_failed`, invokes `cancel` once, marks the run FAILED and retries
with the remaining attempts; with no attempts left the run returns the
failure result.  The elapsed-time budget exists only in the simulator:
there, exceeding `hedge_timeout` yields a failed result with message
"Hedge timeout exceeded" (no cancel exists on that path). -/
theorem hedge_failure_cancels_and_retries :
    (∀ (o : AttemptOutcome) (rest : List AttemptOutcome)
       (ctx : ExecutionContext) (intent_id : String),
       o.primary_ok = true → o.hedge_ok = false →
       ExecutionStateMachine.run (o :: rest) ctx intent_id =
         ExecutionStateMachine.run rest
           { ctx with attempts := ctx.attempts + 1
                      state := ExecutionState.FAILED
                      events := ctx.events ++ ["hedge_failed"]
                      cancels := ctx.cancels + 1
                      primary_successes := ctx.primary_successes + 1 }
           intent_id) ∧
    (∀ (ctx : ExecutionContext) (intent_id : String),
       ExecutionStateMachine.run [] ctx intent_id =
         (ctx, ⟨intent_id, false, none,
           some (ExecutionStateMachine.failure_message ctx.events)⟩)) ∧
    (∀ (hedge_timeout : ℤ) (intent : ExecutionIntent)
       (primary_book hedge_book : OrderBookSnapshot)
       (primary_latency hedge_latency : ℤ),
       (ExecutionSimulator.execute_against_book primary_book
          intent.edge.recommended_primary_side
          (match primary_book.asks with
           | [] => 0
           | l :: _ => intent.max_notional / l.price)
          primary_latency).success = true →
       hedge_timeout < primary_latency + hedge_latency →
       ExecutionSimulator.simulate_hedged_execution hedge_timeout intent
         primary_book hedge_book primary_latency hedge_latency =
         ⟨intent.intent_id, false, some (primary_latency + hedge_latency),
          some "Hedge timeout exceeded"⟩) := by
  refine ⟨?_, fun ctx intent_id => rfl, ?_⟩
  · intro o rest ctx intent_id hp hh
    simp [ExecutionStateMachine.run, hp, hh]
  · intro hedge_timeout intent primary_book hedge_book latP latH hfill ht
    unfold ExecutionSimulator.simulate_hedged_execution
    rw [if_neg (by simp [hfill])]
    simp only [execute_against_book_latency]
    rw [if_pos ht]

/-- Witness for C4 amended, spec scenario 2: primary latency 200 ms,
hedge latency 100 ms, budget 250 ms gives FAILED with message
"Hedge timeout exceeded". -/
theorem hedge_failure_cancels_and_retries_witness :
    ExecutionSimulator.simulate_hedged_execution 250 intent_fixture
      primary_book_fixture hedge_book_fixture 200 100 =
      ⟨intent_fixture.intent_id, false, some (200 + 100),
       some "Hedge timeout exceeded"⟩ ∧
    (250 : ℤ) < 200 + 100 := by
  refine ⟨hedge_failure_cancels_and_retries.2.2 250 intent_fixture
    primary_book_fixture hedge_book_fixture 200 100 ?_ (by decide), by decide⟩
  norm_num [ExecutionSimulator.execute_against_book,
    ExecutionSimulator.fill_walk, intent_fixture, edge_fixture,
    primary_book_fixture]

/-- The VWAP walk never decreases its cost and size accumulators while
the remaining notional is non-negative and levels are positive. -/
theorem vwap_walk_ge (levels : List OrderBookLevel) (c s r : ℚ)
    (hr : 0 ≤ r) (hpos : ∀ l ∈ levels, 0 < l.price ∧ 0 < l.size) :
    c ≤ (DepthModel.vwap_walk levels c s r).1 ∧
    s ≤ (DepthModel.vwap_walk levels c s r).2 := by
  induction levels generalizing c s r with
  | nil => simp [DepthModel.vwap_walk]
  | cons l rest ih =>
      have hl := hpos l (by simp)
      have hrest : ∀ x ∈ rest, 0 < x.price ∧ 0 < x.size := fun x hx =>
        hpos x (by simp [hx])
      have hln : 0 ≤ l.price * l.size := le_of_lt (mul_pos hl.1 hl.2)
      simp only [DepthModel.vwap_walk]
      split_ifs with h
      · have hnext := ih (c + l.price * l.size) (s + l.size)
          (r - l.price * l.size) (by linarith) hrest
        constructor
        · calc c ≤ c + l.price * l.size := by linarith
            _ ≤ _ := hnext.1
        · calc s ≤ s + l.size := by linarith [hl.2]
            _ ≤ _ := hnext.2
      · constructor
        · simp only []
          linarith
        · have : 0 ≤ r / l.price := div_nonneg hr (le_of_lt hl.1)
          simp only []
          linarith

/-- For a positive target and a non-empty side of positive levels, the
VWAP of the walked fill is positive (so never the `0` that triggers the
conservative penalty). -/
theorem calculate_vwap_pos (max_levels : ℕ) (levels : List OrderBookLevel)
    (n : ℚ) (hn : 0 < n) (hK : 0 < max_levels) (hne : levels ≠ [])
    (hpos : ∀ l ∈ levels, 0 < l.price ∧ 0 < l.size) :
    0 < DepthModel.calculate_vwap max_levels levels n := by
  obtain ⟨l, rest, rfl⟩ := List.exists_cons_of_ne_nil hne
  have hl := hpos l (by simp)
  obtain ⟨K, rfl⟩ := Nat.exists_eq_succ_of_ne_zero (Nat.pos_iff_ne_zero.mp hK)
  have hrest : ∀ x ∈ rest.take K, 0 < x.price ∧ 0 < x.size := fun x hx =>
    hpos x (List.mem_cons_of_mem _ (List.take_subset _ _ hx))
  have key : 0 < (DepthModel.vwap_walk ((l :: rest).take (K + 1)) 0 0 n).1 ∧
      0 < (DepthModel.vwap_walk ((l :: rest).take (K + 1)) 0 0 n).2 := by
    rw [List.take_succ_cons]
    simp only [DepthModel.vwap_walk]
    split_ifs with h
    · have hnext := vwap_walk_ge (rest.take K) (0 + l.price * l.size)
        (0 + l.size) (n - l.price * l.size) (by linarith) hrest
      have hln : 0 < l.price * l.size := mul_pos hl.1 hl.2
      exact ⟨lt_of_lt_of_le (by linarith) hnext.1,
        lt_of_lt_of_le (by linarith [hl.2]) hnext.2⟩
    · have : 0 < n / l.price := div_pos hn hl.1
      constructor
      · simp only []
        linarith
      · simp only []
        linarith
  unfold DepthModel.calculate_vwap
  rw [if_neg (by simp)]
  rw [if_neg (ne_of_gt key.2)]
  exact div_pos key.1 key.2

/-- C5 counterexample: a primary ask side holding only $5 of notional
against a $100 target is "insufficient" in the claim's sense, yet the
model charges 0¢ (the VWAP of the filled $5), not the 2% ($2 = 200¢)
penalty. -/
theorem partial_fill_no_penalty : ¬ claimC5 3 := by
  intro h
  have hd : (DepthModel.analyze_depth 3 thin_primary_book
      deep_hedge_book).primary_ask_depth_usd = 5 := by
    norm_num [DepthModel.analyze_depth, thin_primary_book, deep_hedge_book]
  have h2 := (h thin_primary_book deep_hedge_book 100 (by norm_num)).1
    (Or.inl (by rw [hd]; norm_num))
  have h3 : DepthModel.expected_slippage_cents 3 100 (some thin_primary_book)
      (some deep_hedge_book) = 0 := by
    norm_num [DepthModel.expected_slippage_cents, DepthModel.analyze_depth,
      DepthModel.calculate_vwap, DepthModel.vwap_walk, thin_primary_book,
      deep_hedge_book]
  rw [h3] at h2
  norm_num at h2

/-- C5 amended: the conservative penalty (2% of N, in cents) is returned
when a queried side is empty — the condition the code actually detects
(VWAP = 0) — while a non-empty side whose notional cannot cover N is
charged the ordinary VWAP-versus-best formula over whatever quantity the
walk filled. -/
theorem expected_slippage_spec (max_levels : ℕ) (n : ℚ)
    (pb hb : OrderBookSnapshot) (hn : 0 < n) (hK : 0 < max_levels)
    (hpa : ∀ l ∈ pb.asks, 0 < l.price ∧ 0 < l.size)
    (hhb : ∀ l ∈ hb.bids, 0 < l.price ∧ 0 < l.size) :
    ((pb.asks = [] ∨ hb.bids = []) →
      DepthModel.expected_slippage_cents max_levels n (some pb) (some hb) =
        (2/100) * n * 100) ∧
    (pb.asks ≠ [] → hb.bids ≠ [] →
      DepthModel.expected_slippage_cents max_levels n (some pb) (some hb) =
        (|DepthModel.calculate_vwap max_levels pb.asks n -
            (DepthModel.analyze_depth max_levels pb hb).primary_best_ask| * n /
            (DepthModel.analyze_depth max_levels pb hb).primary_best_ask +
         |DepthModel.calculate_vwap max_levels hb.bids n -
            (DepthModel.analyze_depth max_levels pb hb).hedge_best_bid| * n /
            (DepthModel.analyze_depth max_levels pb hb).hedge_best_bid) * 100) := by
  constructor
  · intro hcase
    rcases hcase with hempty | hempty
    · have hv : DepthModel.calculate_vwap max_levels pb.asks n = 0 := by
        rw [hempty]
        simp [DepthModel.calculate_vwap]
      simp only [DepthModel.expected_slippage_cents]
      rw [if_pos hv]
      ring
    · by_cases hpe : pb.asks = []
      · have hv : DepthModel.calculate_vwap max_levels pb.asks n = 0 := by
          rw [hpe]
          simp [DepthModel.calculate_vwap]
        simp only [DepthModel.expected_slippage_cents]
        rw [if_pos hv]
        ring
      · have hv : DepthModel.calculate_vwap max_levels hb.bids n = 0 := by
          rw [hempty]
          simp [DepthModel.calculate_vwap]
        simp only [DepthModel.expected_slippage_cents]
        split_ifs with h1
        · ring
        · ring
  · intro hpe hhe
    have hv1 := calculate_vwap_pos max_levels pb.asks n hn hK hpe hpa
    have hv2 := calculate_vwap_pos max_levels hb.bids n hn hK hhe hhb
    simp only [DepthModel.expected_slippage_cents]
    rw [if_neg (ne_of_gt hv1), if_neg (ne_of_gt hv2)]

/-- Witness for C5 amended: both fixture sides can fill $100, so the
slippage is the VWAP formula (here 0¢, both VWAPs equal the best
quotes). -/
theorem expected_slippage_spec_witness :
    DepthModel.expected_slippage_cents 3 100 (some primary_book_fixture)
      (some hedge_book_fixture) =
      (|DepthModel.calculate_vwap 3 primary_book_fixture.asks 100 -
          (DepthModel.analyze_depth 3 primary_book_fixture
            hedge_book_fixture).primary_best_ask| * 100 /
          (DepthModel.analyze_depth 3 primary_book_fixture
            hedge_book_fixture).primary_best_ask +
       |DepthModel.calculate_vwap 3 hedge_book_fixture.bids 100 -
          (DepthModel.analyze_depth 3 primary_book_fixture
            hedge_book_fixture).hedge_best_bid| * 100 /
          (DepthModel.analyze_depth 3 primary_book_fixture
            hedge_book_fixture).hedge_best_bid) * 100 :=
  (expected_slippage_spec 3 100 primary_book_fixture hedge_book_fixture
    (by norm_num) (by norm_num)
    (by intro l hl; simp [primary_book_fixture] at hl; subst hl; norm_num)
    (by intro l hl; simp [hedge_book_fixture] at hl; subst hl; norm_num)).2
    (by simp [primary_book_fixture]) (by simp [hedge_book_fixture])

/-- C6 (code bug): `validate` runs only the time-window and threshold
checks, so a candidate pair passes hard rules — for every tolerance and
allow-list configuration — even though the two markets' resolution
sources normalize to the distinct identifiers `bls` and `fed` and no
allow-list entry covers them.  The synonyms table exists
(`_normalize_resolution_source`) but is never invoked by `validate`,
contradicting the validator's own rule list. -/
theorem resolution_rule_never_enforced :
    ∀ (time_window_tolerance_hours : ℕ)
      (allowed_resolution_mismatches : List (String × String)),
      (HardRulesValidator.validate time_window_tolerance_hours
        allowed_resolution_mismatches pair_fixture).hard_rules_passed = true ∧
      (HardRulesValidator.validate time_window_tolerance_hours
        allowed_resolution_mismatches pair_fixture).notes = none ∧
      HardRulesValidator.normalize_resolution_source
        "Bureau of Labor Statistics" = "bls" ∧
      HardRulesValidator.normalize_resolution_source "Federal Reserve" = "fed" ∧
      ("bls" : String) ≠ "fed" := by
  intro tol allowed
  have ht : HardRulesValidator.check_time_window_alignment pair_fixture =
      ⟨true, none⟩ := by
    norm_num [HardRulesValidator.check_time_window_alignment, pair_fixture]
  have hth : HardRulesValidator.check_threshold_alignment pair_fixture =
      ⟨true, none⟩ := by decide
  refine ⟨?_, ?_, by decide, by decide, by decide⟩
  · simp [HardRulesValidator.validate, ht, hth]
  · simp [HardRulesValidator.validate, ht, hth]
    simp [pair_fixture]

/-- C8: whenever `analyze` reports `stable = true`, the current leader
occurs at least 3 times in the (at most 4 entry) leader history including
the current observation, and `|correlation| ≥ min_correlation`; the
history ring never exceeds 4 entries; and the returned confidence is
`|correlation|` when stable (Pearson coefficients satisfy
`|correlation| ≤ 1`) and `0.5·|correlation|` otherwise. -/
theorem leadlag_stable_spec (min_correlation : ℚ) (bar_interval_seconds : ℤ)
    (venue_a venue_b : String) (history : List String) (optimal_lag : ℤ)
    (correlation : ℚ) (hcorr : |correlation| ≤ 1) :
    ((LeadLagAnalyzer.analyze_tail min_correlation 4 bar_interval_seconds
        venue_a venue_b history optimal_lag correlation).1.stable = true →
      ∃ l, (LeadLagAnalyzer.analyze_tail min_correlation 4 bar_interval_seconds
          venue_a venue_b history optimal_lag correlation).1.leader = some l ∧
        3 ≤ (LeadLagAnalyzer.analyze_tail min_correlation 4 bar_interval_seconds
          venue_a venue_b history optimal_lag correlation).2.count l ∧
        min_correlation ≤ |correlation|) ∧
    (history.length ≤ 4 →
      (LeadLagAnalyzer.analyze_tail min_correlation 4 bar_interval_seconds
        venue_a venue_b history optimal_lag correlation).2.length ≤ 4) ∧
    (LeadLagAnalyzer.analyze_tail min_correlation 4 bar_interval_seconds
        venue_a venue_b history optimal_lag correlation).1.confidence =
      (if (LeadLagAnalyzer.analyze_tail min_correlation 4 bar_interval_seconds
          venue_a venue_b history optimal_lag correlation).1.stable = true
       then |correlation| else |correlation| / 2) := by
  have hpush : ∀ (l : String),
      (LeadLagAnalyzer.push_leader 4 history l).length ≤ 4 := by
    intro l
    simp only [LeadLagAnalyzer.push_leader, List.length_drop,
      List.length_append, List.length_cons, List.length_nil]
    omega
  by_cases hc : min_correlation ≤ |correlation|
  · by_cases hl1 : 0 < optimal_lag
    · by_cases hs : 3 ≤ (LeadLagAnalyzer.push_leader 4 history venue_a).length ∧
          3 ≤ (LeadLagAnalyzer.push_leader 4 history venue_a).count venue_a
      · refine ⟨fun _ => ⟨venue_a, ?_, ?_, hc⟩, fun _ => ?_, ?_⟩ <;>
          simp [LeadLagAnalyzer.analyze_tail, hc, hl1, hs, hpush,
            min_eq_left hcorr]
      · refine ⟨fun hst => ?_, fun _ => ?_, ?_⟩
        · simp [LeadLagAnalyzer.analyze_tail, hc, hl1, hs] at hst
        · simp [LeadLagAnalyzer.analyze_tail, hc, hl1, hs, hpush]
        · simp [LeadLagAnalyzer.analyze_tail, hc, hl1, hs]
          ring
    · by_cases hl2 : optimal_lag < 0
      · by_cases hs : 3 ≤ (LeadLagAnalyzer.push_leader 4 history venue_b).length ∧
            3 ≤ (LeadLagAnalyzer.push_leader 4 history venue_b).count venue_b
        · refine ⟨fun _ => ⟨venue_b, ?_, ?_, hc⟩, fun _ => ?_, ?_⟩ <;>
            simp [LeadLagAnalyzer.analyze_tail, hc, hl1, hl2, hs, hpush,
              min_eq_left hcorr]
        · refine ⟨fun hst => ?_, fun _ => ?_, ?_⟩
          · simp [LeadLagAnalyzer.analyze_tail, hc, hl1, hl2, hs] at hst
          · simp [LeadLagAnalyzer.analyze_tail, hc, hl1, hl2, hs, hpush]
          · simp [LeadLagAnalyzer.analyze_tail, hc, hl1, hl2, hs]
            ring
      · refine ⟨fun hst => ?_, fun h4 => ?_, ?_⟩
        · simp [LeadLagAnalyzer.analyze_tail, hc, hl1, hl2] at hst
        · simpa [LeadLagAnalyzer.analyze_tail, hc, hl1, hl2] using h4
        · simp [LeadLagAnalyzer.analyze_tail, hc, hl1, hl2]
          ring
  · refine ⟨fun hst => ?_, fun h4 => ?_, ?_⟩
    · simp [LeadLagAnalyzer.analyze_tail, hc] at hst
    · simpa [LeadLagAnalyzer.analyze_tail, hc] using h4
    · simp [LeadLagAnalyzer.analyze_tail, hc]
      ring

/-- Witness for C8 at a concrete stable observation: history ["a","a"],
leader "a" detected with correlation 0.5 ≥ 0.3 — stable, confidence
0.5 = |correlation|. -/
theorem leadlag_stable_spec_witness :
    |(1/2 : ℚ)| ≤ 1 ∧
    ((LeadLagAnalyzer.analyze_tail (3/10) 4 5 "a" "b" ["a", "a"] 1
        (1/2)).1.confidence =
      if (LeadLagAnalyzer.analyze_tail (3/10) 4 5 "a" "b" ["a", "a"] 1
          (1/2)).1.stable = true
      then |(1/2 : ℚ)| else |(1/2 : ℚ)| / 2) :=
  ⟨by rw [show |(1/2 : ℚ)| = 1/2 from abs_of_nonneg (by norm_num)]; norm_num,
   (leadlag_stable_spec (3/10) 5 "a" "b" ["a", "a"] 1 (1/2)
     (by rw [show |(1/2 : ℚ)| = 1/2 from abs_of_nonneg (by norm_num)]
         norm_num)).2.2⟩

/-- C7 counterexample: a raw YES order priced at 100 cents yields a
retained bid level at price 1.0, although the claim requires levels with
price ≥ 1 to be discarded. -/
theorem price_one_level_retained : ¬ claimC7 3 := by
  intro h
  have hb : (KalshiAdapter.parse_orderbook_snapshot "kalshi" "T" 0 3
      [⟨100, 50⟩] []).bids = [⟨1, 50⟩] := by
    norm_num [KalshiAdapter.parse_orderbook_snapshot, List.insertionSort,
      List.orderedInsert]
  have h2 := (h "kalshi" "T" 0 [⟨100, 50⟩] []).1 ⟨1, 50⟩ (by rw [hb]; simp)
  exact absurd h2.2.1 (by norm_num)

/-- C7 amended: the spec's concrete YES/NO example holds verbatim; for
every raw book, bids are sorted descending and asks ascending; the asks
are exactly the complements `(1 − p/100, s)` of the retained NO levels of
the truncated raw side (and bids exactly the retained YES levels at
`p/100`), where "retained" means positive parsed price and positive
quantity — so emitted bids have price > 0 and emitted asks have
price < 1, but a raw price of 100 cents is retained (bid price 1.0, ask
price 0.0), not discarded. -/
theorem parse_orderbook_spec (max_depth : ℕ) :
    (KalshiAdapter.parse_orderbook_snapshot "kalshi" "T" 0 3 yes_fixture
        no_fixture =
      ⟨⟨"kalshi", "T", "T"⟩, 0, [⟨11/20, 100⟩, ⟨27/50, 200⟩],
        [⟨27/50, 180⟩, ⟨11/20, 120⟩]⟩) ∧
    (∀ (venue ticker : String) (ts : ℚ) (yes no : List KalshiAdapter.RawOrder),
      (KalshiAdapter.parse_orderbook_snapshot venue ticker ts max_depth yes
        no).bids.Pairwise KalshiAdapter.bid_order ∧
      (KalshiAdapter.parse_orderbook_snapshot venue ticker ts max_depth yes
        no).asks.Pairwise KalshiAdapter.ask_order ∧
      (∀ l, l ∈ (KalshiAdapter.parse_orderbook_snapshot venue ticker ts
          max_depth yes no).asks ↔
        ∃ o ∈ no.take max_depth, (0 < o.price / 100 ∧ 0 < o.quantity) ∧
          l = ⟨1 - o.price / 100, (o.quantity : ℚ)⟩) ∧
      (∀ l, l ∈ (KalshiAdapter.parse_orderbook_snapshot venue ticker ts
          max_depth yes no).bids ↔
        ∃ o ∈ yes.take max_depth, (0 < o.price / 100 ∧ 0 < o.quantity) ∧
          l = ⟨o.price / 100, (o.quantity : ℚ)⟩) ∧
      (∀ l ∈ (KalshiAdapter.parse_orderbook_snapshot venue ticker ts
          max_depth yes no).bids, 0 < l.price ∧ 0 < l.size) ∧
      (∀ l ∈ (KalshiAdapter.parse_orderbook_snapshot venue ticker ts
          max_depth yes no).asks, l.price < 1 ∧ 0 < l.size)) := by
  have hasks : ∀ (venue ticker : String) (ts : ℚ)
      (yes no : List KalshiAdapter.RawOrder) (l : OrderBookLevel),
      l ∈ (KalshiAdapter.parse_orderbook_snapshot venue ticker ts max_depth
        yes no).asks ↔
      ∃ o ∈ no.take max_depth, (0 < o.price / 100 ∧ 0 < o.quantity) ∧
        l = ⟨1 - o.price / 100, (o.quantity : ℚ)⟩ := by
    intro venue ticker ts yes no l
    simp only [KalshiAdapter.parse_orderbook_snapshot]
    rw [(List.perm_insertionSort KalshiAdapter.ask_order _).mem_iff,
      List.mem_filterMap]
    constructor
    · rintro ⟨o, ho, hfo⟩
      by_cases hcond : 0 < o.price / 100 ∧ 0 < o.quantity
      · rw [if_pos hcond] at hfo
        exact ⟨o, ho, hcond, (Option.some_injective _ hfo).symm⟩
      · rw [if_neg hcond] at hfo
        exact absurd hfo (by simp)
    · rintro ⟨o, ho, hcond, rfl⟩
      exact ⟨o, ho, by rw [if_pos hcond]⟩
  have hbids : ∀ (venue ticker : String) (ts : ℚ)
      (yes no : List KalshiAdapter.RawOrder) (l : OrderBookLevel),
      l ∈ (KalshiAdapter.parse_orderbook_snapshot venue ticker ts max_depth
        yes no).bids ↔
      ∃ o ∈ yes.take max_depth, (0 < o.price / 100 ∧ 0 < o.quantity) ∧
        l = ⟨o.price / 100, (o.quantity : ℚ)⟩ := by
    intro venue ticker ts yes no l
    simp only [KalshiAdapter.parse_orderbook_snapshot]
    rw [(List.perm_insertionSort KalshiAdapter.bid_order _).mem_iff,
      List.mem_filterMap]
    constructor
    · rintro ⟨o, ho, hfo⟩
      by_cases hcond : 0 < o.price / 100 ∧ 0 < o.quantity
      · rw [if_pos hcond] at hfo
        exact ⟨o, ho, hcond, (Option.some_injective _ hfo).symm⟩
      · rw [if_neg hcond] at hfo
        exact absurd hfo (by simp)
    · rintro ⟨o, ho, hcond, rfl⟩
      exact ⟨o, ho, by rw [if_pos hcond]⟩
  refine ⟨?_, ?_⟩
  · norm_num [KalshiAdapter.parse_orderbook_snapshot, yes_fixture, no_fixture,
      List.insertionSort, List.orderedInsert, KalshiAdapter.bid_order,
      KalshiAdapter.ask_order]
  · intro venue ticker ts yes no
    refine ⟨?_, ?_, hasks venue ticker ts yes no, hbids venue ticker ts yes no,
      ?_, ?_⟩
    · exact List.sorted_insertionSort KalshiAdapter.bid_order _
    · exact List.sorted_insertionSort KalshiAdapter.ask_order _
    · intro l hl
      obtain ⟨o, -, hcond, rfl⟩ := (hbids venue ticker ts yes no l).mp hl
      exact ⟨hcond.1, by show (0 : ℚ) < (o.quantity : ℚ); exact_mod_cast hcond.2⟩
    · intro l hl
      obtain ⟨o, -, hcond, rfl⟩ := (hasks venue ticker ts yes no l).mp hl
      exact ⟨by show (1 : ℚ) - o.price / 100 < 1; linarith [hcond.1],
        by show (0 : ℚ) < (o.quantity : ℚ); exact_mod_cast hcond.2⟩

/-- Witness for C7 amended: the retained NO level (46¢, 180) appears as
the ask level (0.54, 180) in the fixture snapshot. -/
theorem parse_orderbook_spec_witness :
    (⟨27/50, 180⟩ : OrderBookLevel) ∈
      (KalshiAdapter.parse_orderbook_snapshot "kalshi" "T" 0 3 yes_fixture
        no_fixture).asks ∧
    (⟨46, 180⟩ : KalshiAdapter.RawOrder) ∈ no_fixture.take 3 := by
  refine ⟨(((parse_orderbook_spec 3).2 "kalshi" "T" 0 yes_fixture
      no_fixture).2.2.1 ⟨27/50, 180⟩).mpr
      ⟨⟨46, 180⟩, by norm_num [no_fixture], ⟨by norm_num, by norm_num⟩,
       by norm_num⟩,
    by norm_num [no_fixture]⟩

/-- Witness for C10 amended at the reversed fixture: buy-direction gross
−70¢, zero costs — no signal. -/
theorem compute_one_direction_witness :
    SignalService.compute zero_model zero_model (5/2) (99/100)
      reversed_request_fixture = none ∧
    ((1/5 : ℚ) - 9/10) * 100 ≤ 0 := by
  refine ⟨(compute_one_direction zero_model zero_model (5/2) (99/100)
      reversed_request_fixture).2 ?_ ?_ ?_ ?_, ?_⟩ <;>
    norm_num [zero_model, reversed_request_fixture]

end Arbitrage
